import Mathlib

/-!
Shallow embedding of `src/fenv.py` (pyfenv): a binding layer exposing the C99
floating-point environment (exception flags and rounding control) of libm.

The pure parts (`FE` constants, the `EXCEPT` codec, the `ROUND` enumeration,
the `ExceptFlag` wrapper logic) are translated directly from the Python
source.  The native libm primitives (`feclearexcept`, `fegetexceptflag`,
`feraiseexcept`, `fesetexceptflag`, `fetestexcept`, `fegetround`,
`fesetround`) are the external collaborator of spec section 6; they are not
part of the repository's code and are modelled from the spec's contract,
using the native encodings that the repository's own `FE` class fixes.
-/

namespace Pyfenv

/- `class FE` of `src/fenv.py`: bits representing the exceptions (bit
positions of the FPU control word) and the four native rounding-mode codes. -/
namespace FE

def INVALID : ℕ := 0x01

def DENORM : ℕ := 0x02

def DIVBYZERO : ℕ := 0x04

def OVERFLOW : ℕ := 0x08

def UNDERFLOW : ℕ := 0x10

def INEXACT : ℕ := 0x20

/-- `FE.ALL_EXCEPT = INEXACT | DIVBYZERO | UNDERFLOW | OVERFLOW | INVALID`. -/
def ALL_EXCEPT : ℕ := INEXACT ||| DIVBYZERO ||| UNDERFLOW ||| OVERFLOW ||| INVALID

def TONEAREST : ℕ := 0

def DOWNWARD : ℕ := 0x400

def UPWARD : ℕ := 0x800

def TOWARDZERO : ℕ := 0xc00

end FE

/-- `class EXCEPT(enum.Enum)`: the various possible floating-point
exceptions; values are bit numbers. -/
inductive EXCEPT : Type where
  | INVALID
  | DENORM
  | DIVBYZERO
  | OVERFLOW
  | UNDERFLOW
  | INEXACT
deriving DecidableEq, Fintype

/-- The `value` of each `EXCEPT` member (its bit number). -/
def EXCEPT.value : EXCEPT → ℕ
  | .INVALID => 0
  | .DENORM => 1
  | .DIVBYZERO => 2
  | .OVERFLOW => 3
  | .UNDERFLOW => 4
  | .INEXACT => 5

/-- `EXCEPT.__members__.values()`: the members in definition order. -/
def EXCEPT.members : List EXCEPT :=
  [.INVALID, .DENORM, .DIVBYZERO, .OVERFLOW, .UNDERFLOW, .INEXACT]

/-- `EXCEPT.from_mask`: converts a bitmask to a frozenset of EXCEPT.xxx
values, testing `1 << e.value & mask != 0` for each member. -/
def EXCEPT.from_mask (mask : ℕ) : Finset EXCEPT :=
  EXCEPT.members.foldl
    (fun result e => if 1 <<< e.value &&& mask ≠ 0 then insert e result else result) ∅

/-- `EXCEPT.to_mask`: converts a set of EXCEPT.xxx values to a bitmask,
ORing in `1 << e.value` for each member present. -/
def EXCEPT.to_mask (flags : Finset EXCEPT) : ℕ :=
  EXCEPT.members.foldl
    (fun result e => if e ∈ flags then result ||| 1 <<< e.value else result) 0

/-- `EXCEPT_ALL`: the frozenset of all `EXCEPT` members. -/
def EXCEPT_ALL : Finset EXCEPT := EXCEPT.members.toFinset

/-- `class ROUND(enum.Enum)`: the four rounding directions. -/
inductive ROUND : Type where
  | TONEAREST
  | DOWNWARD
  | UPWARD
  | TOWARDZERO
deriving DecidableEq, Fintype

/-- The `value` of each `ROUND` member as defined in `src/fenv.py`
(`TONEAREST = 0, DOWNWARD = 1, UPWARD = 2, TOWARDZERO = 3`). -/
def ROUND.value : ROUND → ℕ
  | .TONEAREST => 0
  | .DOWNWARD => 1
  | .UPWARD => 2
  | .TOWARDZERO => 3

/-- Python enum lookup `ROUND(v)`: the member whose `value` is `v`, or
`none` for the `ValueError` raised when no member has that value. -/
def ROUND.ofValue (v : ℕ) : Option ROUND :=
  if v = 0 then some .TONEAREST
  else if v = 1 then some .DOWNWARD
  else if v = 2 then some .UPWARD
  else if v = 3 then some .TOWARDZERO
  else none

/-- Spec-side correspondence (spec sections 3 and 6): the native
rounding-mode encoding named like each `ROUND` member, as fixed by the
repository's `FE` class. -/
def ROUND.nativeCode : ROUND → ℕ
  | .TONEAREST => FE.TONEAREST
  | .DOWNWARD => FE.DOWNWARD
  | .UPWARD => FE.UPWARD
  | .TOWARDZERO => FE.TOWARDZERO

/-- Modelled from the spec (section 3, "process-wide floating-point
environment"): the ambient native state, namely the sticky exception-flag
bits of the status word and the current native rounding-mode encoding. -/
structure FPEnv : Type where
  flags : ℕ
  mode : ℕ
deriving DecidableEq

/-- Modelled from the spec: the native `clear_exceptions(mask) -> status`
primitive (C99 `feclearexcept`); clears each flag bit in `mask`, leaves the
rest untouched, and reports success. -/
def feclearexcept (mask : ℕ) (env : FPEnv) : ℕ × FPEnv :=
  (0, { env with flags := Nat.ldiff env.flags mask })

/-- Modelled from the spec: the native `test_exceptions(mask) ->
resulting_mask` primitive (C99 `fetestexcept`); returns the currently
signaled flags restricted to `mask`. -/
def fetestexcept (mask : ℕ) (env : FPEnv) : ℕ :=
  env.flags &&& mask

/-- Modelled from the spec: the native `raise_exceptions(mask) -> status`
primitive (C99 `feraiseexcept`); sets each flag bit in `mask` and reports
success. -/
def feraiseexcept (mask : ℕ) (env : FPEnv) : ℕ × FPEnv :=
  (0, { env with flags := env.flags ||| mask })

/-- Modelled from the spec: the native `get_exception_flag(out, mask) ->
status` primitive (C99 `fegetexceptflag`); stores the currently signaled
flags restricted to `mask` into the `fexcept_t` (a C unsigned short, hence
the reduction modulo `2^16`) out-parameter and reports success.  The pair is
(status, stored `fexcept_t` value). -/
def fegetexceptflag (mask : ℕ) (env : FPEnv) : ℕ × ℕ :=
  (0, (env.flags &&& mask) % 65536)

/-- Modelled from the spec: the native `set_exception_flag(flags, mask) ->
status` primitive (C99 `fesetexceptflag`); for each flag bit in `mask`,
copies that bit from the saved representation `flagp`, leaves flags outside
`mask` untouched, and reports success. -/
def fesetexceptflag (flagp mask : ℕ) (env : FPEnv) : ℕ × FPEnv :=
  (0, { env with flags := Nat.ldiff env.flags mask ||| (flagp &&& mask) })

/-- Modelled from the spec: the native `get_rounding_mode() -> integer`
primitive (C99 `fegetround`); returns the current native rounding-mode
encoding. -/
def fegetround (env : FPEnv) : ℕ :=
  env.mode

/-- Modelled from the spec: the native `set_rounding_mode(mode) -> status`
primitive (C99 `fesetround`); when the argument is one of the four native
mode encodings fixed by the `FE` class it installs that mode and returns
status 0, otherwise it returns a nonzero status and leaves the environment
unchanged. -/
def fesetround (round : ℕ) (env : FPEnv) : ℕ × FPEnv :=
  if round = FE.TONEAREST ∨ round = FE.DOWNWARD ∨ round = FE.UPWARD ∨ round = FE.TOWARDZERO
  then (0, { env with mode := round })
  else (1, env)

/-- `ROUND.get`: `celf(libm.fegetround())` — looks the value returned by the
native call up among the `ROUND` members (`none` models the `ValueError`
raised when no member matches). -/
def ROUND.get (env : FPEnv) : Option ROUND :=
  ROUND.ofValue (fegetround env)

/-- `ROUND.set`: `libm.fesetround(self.value)` — passes the member's enum
value to the native call and discards the returned status. -/
def ROUND.set (self : ROUND) (env : FPEnv) : FPEnv :=
  (fesetround self.value env).2

/-- `class ExceptFlag`: wrapper for the implementation-defined
representation of exception flags; single slot `_flags`. -/
structure ExceptFlag : Type where
  _flags : Finset EXCEPT
deriving DecidableEq

/-- `ExceptFlag.clear`: `libm.feclearexcept(EXCEPT.to_mask(excepts))`,
status discarded. -/
def ExceptFlag.clear (excepts : Finset EXCEPT) (env : FPEnv) : FPEnv :=
  (feclearexcept (EXCEPT.to_mask excepts) env).2

/-- `ExceptFlag.getflag`: reads the state of the exceptions in `excepts`
through `fegetexceptflag` into a fresh `fexcept_t` and wraps
`EXCEPT.from_mask` of its value in a new `ExceptFlag`; status discarded. -/
def ExceptFlag.getflag (excepts : Finset EXCEPT) (env : FPEnv) : ExceptFlag :=
  ⟨EXCEPT.from_mask (fegetexceptflag (EXCEPT.to_mask excepts) env).2⟩

/-- `ExceptFlag.raıse` (spelled `raise` here, since Lean identifiers cannot
contain the dotless i): `libm.feraiseexcept(EXCEPT.to_mask(excepts))`,
status discarded. -/
def ExceptFlag.raise (excepts : Finset EXCEPT) (env : FPEnv) : FPEnv :=
  (feraiseexcept (EXCEPT.to_mask excepts) env).2

/-- `ExceptFlag.setflag`: builds a `fexcept_t` (C unsigned short) from
`EXCEPT.to_mask(self._flags)` and passes it with `EXCEPT.to_mask(excepts)`
to `libm.fesetexceptflag`; status discarded. -/
def ExceptFlag.setflag (self : ExceptFlag) (excepts : Finset EXCEPT) (env : FPEnv) : FPEnv :=
  (fesetexceptflag (EXCEPT.to_mask self._flags % 65536) (EXCEPT.to_mask excepts) env).2

/-- `ExceptFlag.test`: `EXCEPT.from_mask(libm.fetestexcept(EXCEPT.to_mask(excepts)))`. -/
def ExceptFlag.test (excepts : Finset EXCEPT) (env : FPEnv) : Finset EXCEPT :=
  EXCEPT.from_mask (fetestexcept (EXCEPT.to_mask excepts) env)

/-- A flag-mutating operation of the wrapper API: `ExceptFlag.clear` or
`ExceptFlag.raıse` on some set of exception kinds. -/
inductive MutOp : Type where
  | clear (excepts : Finset EXCEPT)
  | raise (excepts : Finset EXCEPT)

/-- Apply one flag-mutating wrapper operation to the environment. -/
def MutOp.apply : MutOp → FPEnv → FPEnv
  | .clear excepts, env => ExceptFlag.clear excepts env
  | .raise excepts, env => ExceptFlag.raise excepts env

/-- Apply a sequence of flag-mutating wrapper operations in order. -/
def applyOps (ops : List MutOp) (env : FPEnv) : FPEnv :=
  ops.foldl (fun e op => MutOp.apply op e) env

/-- Spec-side constant (spec section 8): the OR of the bits of all six
exception kinds. -/
def validBitsMask : ℕ :=
  EXCEPT.members.foldl (fun acc e => acc ||| 1 <<< e.value) 0

/-! ## Helper lemmas -/

lemma pow_and_ne_iff (v M : ℕ) : (1 <<< v &&& M ≠ 0) ↔ M.testBit v = true := by
  rw [Nat.shiftLeft_eq, one_mul]
  constructor
  · intro h
    by_contra hb
    rw [Bool.not_eq_true] at hb
    apply h
    apply Nat.eq_of_testBit_eq
    intro i
    rw [Nat.testBit_and, Nat.testBit_two_pow, Nat.zero_testBit]
    rcases eq_or_ne v i with rfl | hne
    · simp [hb]
    · simp [hne]
  · intro h h0
    have h1 := congrArg (fun x => Nat.testBit x v) h0
    simp [Nat.testBit_and, Nat.testBit_two_pow, h] at h1

lemma from_mask_congr {M N : ℕ} (h : ∀ v, v < 6 → M.testBit v = N.testBit v) :
    EXCEPT.from_mask M = EXCEPT.from_mask N := by
  simp only [EXCEPT.from_mask, EXCEPT.members, List.foldl, EXCEPT.value, pow_and_ne_iff]
  rw [h 0 (by norm_num), h 1 (by norm_num), h 2 (by norm_num), h 3 (by norm_num),
    h 4 (by norm_num), h 5 (by norm_num)]

lemma from_mask_mod64 (M : ℕ) : EXCEPT.from_mask M = EXCEPT.from_mask (M % 64) := by
  apply from_mask_congr
  intro v hv
  have h64 : (64 : ℕ) = 2 ^ 6 := by norm_num
  rw [h64, Nat.testBit_mod_two_pow]
  simp [hv]

lemma to_mask_from_mask_small : ∀ r < 64, EXCEPT.to_mask (EXCEPT.from_mask r) = r := by decide

lemma and63_eq_mod (M : ℕ) : M &&& 63 = M % 64 := by
  have h : (63 : ℕ) = 2 ^ 6 - 1 := by norm_num
  rw [h, Nat.and_pow_two_sub_one_eq_mod]

lemma validBitsMask_eq : validBitsMask = 63 := by decide

lemma from_to_mask (S : Finset EXCEPT) : EXCEPT.from_mask (EXCEPT.to_mask S) = S := by
  revert S
  decide

lemma to_mask_lt (S : Finset EXCEPT) : EXCEPT.to_mask S < 64 := by
  revert S
  decide

lemma to_mask_mod (S : Finset EXCEPT) : EXCEPT.to_mask S % 65536 = EXCEPT.to_mask S :=
  Nat.mod_eq_of_lt (lt_trans (to_mask_lt S) (by norm_num))

lemma to_mask_and63 (S : Finset EXCEPT) : EXCEPT.to_mask S &&& 63 = EXCEPT.to_mask S := by
  rw [and63_eq_mod]
  exact Nat.mod_eq_of_lt (to_mask_lt S)

lemma to_mask_all : EXCEPT.to_mask EXCEPT_ALL = 63 := by decide

lemma to_mask_testBit : ∀ (S : Finset EXCEPT) (E : EXCEPT),
    (EXCEPT.to_mask S).testBit E.value = decide (E ∈ S) := by decide

lemma to_mask_singleton : ∀ E : EXCEPT, EXCEPT.to_mask {E} = 2 ^ E.value := by decide

lemma from_mask_two_pow : ∀ E : EXCEPT, EXCEPT.from_mask (2 ^ E.value) = {E} := by decide

lemma from_mask_zero : EXCEPT.from_mask 0 = ∅ := by decide

lemma ldiff_or_and_and (a t m : ℕ) : (Nat.ldiff a m ||| t &&& m) &&& m = t &&& m := by
  apply Nat.eq_of_testBit_eq
  intro i
  simp only [Nat.testBit_and, Nat.testBit_or, Nat.testBit_ldiff]
  cases a.testBit i <;> cases t.testBit i <;> cases m.testBit i <;> rfl

lemma or_and_self (a m : ℕ) : (a ||| m) &&& m = m := by
  apply Nat.eq_of_testBit_eq
  intro i
  simp only [Nat.testBit_and, Nat.testBit_or]
  cases a.testBit i <;> cases m.testBit i <;> rfl

lemma ldiff_and_self (a m : ℕ) : Nat.ldiff a m &&& m = 0 := by
  apply Nat.eq_of_testBit_eq
  intro i
  simp only [Nat.testBit_and, Nat.testBit_ldiff, Nat.zero_testBit]
  cases a.testBit i <;> cases m.testBit i <;> rfl

lemma and_two_pow_ite (a v : ℕ) : a &&& 2 ^ v = if a.testBit v then 2 ^ v else 0 := by
  apply Nat.eq_of_testBit_eq
  intro i
  by_cases h : a.testBit v
  · rw [if_pos h, Nat.testBit_and, Nat.testBit_two_pow]
    rcases eq_or_ne v i with rfl | hne
    · simp [h]
    · simp [hne]
  · rw [if_neg h, Nat.testBit_and, Nat.testBit_two_pow, Nat.zero_testBit]
    rw [Bool.not_eq_true] at h
    rcases eq_or_ne v i with rfl | hne
    · simp [h]
    · simp [hne]

lemma test_singleton (E : EXCEPT) (env : FPEnv) :
    ExceptFlag.test {E} env = if env.flags.testBit E.value then ({E} : Finset EXCEPT) else ∅ := by
  simp only [ExceptFlag.test, fetestexcept, to_mask_singleton, and_two_pow_ite]
  by_cases h : env.flags.testBit E.value <;> simp [h, from_mask_two_pow, from_mask_zero]

lemma test_all_setflag_all (f : ExceptFlag) (env : FPEnv) :
    ExceptFlag.test EXCEPT_ALL (ExceptFlag.setflag f EXCEPT_ALL env) = f._flags := by
  simp only [ExceptFlag.test, ExceptFlag.setflag, fetestexcept, fesetexceptflag, to_mask_all,
    to_mask_mod]
  rw [ldiff_or_and_and, to_mask_and63, from_to_mask]

/-! ## Claim theorems -/

/-- Claim C1: the spec asserts that `set-rounding-mode(M)` followed
immediately by `get-rounding-mode()` returns M for each of the four defined
modes.  The code violates this: `ROUND.set` passes the member's enum ordinal
(here 1 for DOWNWARD) to the native `fesetround`, which is not one of the
native mode encodings fixed by the `FE` class, so the native call rejects it
and the mode is left unchanged; `ROUND.get` then returns the old mode
(TONEAREST), not DOWNWARD. -/
theorem C1_set_then_get_does_not_return_the_mode :
    ROUND.get (ROUND.set ROUND.DOWNWARD ⟨0, FE.TONEAREST⟩) = some ROUND.TONEAREST ∧
      ROUND.get (ROUND.set ROUND.DOWNWARD ⟨0, FE.TONEAREST⟩) ≠ some ROUND.DOWNWARD := by
  decide

/-- Claim C2: the spec asserts that `ROUND.get` succeeds whenever the native
environment's current mode is one of the four defined modes.  The code
violates this: with the native mode set to downward (the encoding
`FE.DOWNWARD = 0x400` fixed by the repository's own `FE` class),
`libm.fegetround()` returns 0x400, which matches no `ROUND` member's value
(the members' values are 0..3), so the enum lookup raises `ValueError`
(modelled as `none`). -/
theorem C2_get_fails_on_native_downward :
    fegetround ⟨0, FE.DOWNWARD⟩ = ROUND.nativeCode ROUND.DOWNWARD ∧
      ROUND.get ⟨0, FE.DOWNWARD⟩ = none := by
  decide

/-- Claim C3: the spec asserts that every mutating operation surfaces a
nonzero native status to the caller as an error.  The code violates this:
here the native `fesetround` call made by `ROUND.DOWNWARD.set()` returns the
nonzero status 1, yet the wrapper discards it and completes normally,
returning the unchanged environment with no error indication (the same
discarding occurs in `ExceptFlag.clear`, `raıse` and `setflag`). -/
theorem C3_nonzero_native_status_silently_discarded :
    (fesetround (ROUND.value ROUND.DOWNWARD) ⟨0, FE.TONEAREST⟩).1 ≠ 0 ∧
      ROUND.set ROUND.DOWNWARD ⟨0, FE.TONEAREST⟩ = ⟨0, FE.TONEAREST⟩ := by
  decide

/-- Claim C4: for every subset S of the six exception kinds, decoding the
encoding of S returns S: `EXCEPT.from_mask (EXCEPT.to_mask S) = S`. -/
theorem C4_decode_encode_roundtrip (S : Finset EXCEPT) :
    EXCEPT.from_mask (EXCEPT.to_mask S) = S :=
  from_to_mask S

/-- Claim C5: for every native integer mask M, encoding the decoding of M
yields M restricted to the six defined bit positions:
`EXCEPT.to_mask (EXCEPT.from_mask M) = M &&& validBitsMask`, where
`validBitsMask` is the OR of the bits of all six exception kinds; bits of M
outside the six defined positions are silently ignored by the decoder. -/
theorem C5_encode_decode_masks_valid_bits (M : ℕ) :
    EXCEPT.to_mask (EXCEPT.from_mask M) = M &&& validBitsMask := by
  rw [validBitsMask_eq, and63_eq_mod, from_mask_mod64,
    to_mask_from_mask_small (M % 64) (Nat.mod_lt M (by norm_num))]

/-- Claim C6: snapshot round-trip.  For every starting environment, capture
a snapshot with `ExceptFlag.getflag` over all kinds, perform any sequence of
clear and raise operations, then restore with `setflag` over all kinds;
afterwards `test` over all kinds equals the exception set captured in the
snapshot. -/
theorem C6_snapshot_restore_roundtrip (env : FPEnv) (ops : List MutOp) :
    ExceptFlag.test EXCEPT_ALL
        (ExceptFlag.setflag (ExceptFlag.getflag EXCEPT_ALL env) EXCEPT_ALL (applyOps ops env))
      = (ExceptFlag.getflag EXCEPT_ALL env)._flags :=
  test_all_setflag_all _ _

/-- Claim C7: for every exception kind E and every environment state,
immediately after `ExceptFlag.raıse {E}`, `ExceptFlag.test {E}` returns
`{E}`. -/
theorem C7_raise_then_test (E : EXCEPT) (env : FPEnv) :
    ExceptFlag.test {E} (ExceptFlag.raise {E} env) = {E} := by
  simp only [ExceptFlag.test, ExceptFlag.raise, fetestexcept, feraiseexcept]
  rw [or_and_self, from_to_mask]

/-- Claim C8: for every exception kind E and every environment state, after
`ExceptFlag.clear {E}` with no intervening raise of E, `ExceptFlag.test {E}`
returns the empty set. -/
theorem C8_clear_then_test (E : EXCEPT) (env : FPEnv) :
    ExceptFlag.test {E} (ExceptFlag.clear {E} env) = ∅ := by
  simp only [ExceptFlag.test, ExceptFlag.clear, fetestexcept, feclearexcept]
  rw [ldiff_and_self, from_mask_zero]

/-- Claim C9: `ExceptFlag.setflag` with limiting set S sets each kind in
S ∩ snapshot to signaled and each kind in S \ snapshot to unsignaled, and
leaves every kind outside S unchanged — observed through `test` on each
single kind, for every snapshot, limiting set and environment state. -/
theorem C9_setflag_sets_clears_and_frames
    (snap : ExceptFlag) (S : Finset EXCEPT) (env : FPEnv) (E : EXCEPT) :
    ExceptFlag.test {E} (ExceptFlag.setflag snap S env) =
      if E ∈ S then (if E ∈ snap._flags then ({E} : Finset EXCEPT) else ∅)
      else ExceptFlag.test {E} env := by
  rw [test_singleton, test_singleton]
  simp only [ExceptFlag.setflag, fesetexceptflag, to_mask_mod, Nat.testBit_or, Nat.testBit_and,
    Nat.testBit_ldiff, to_mask_testBit]
  by_cases hS : E ∈ S <;> by_cases hsnap : E ∈ snap._flags <;>
    by_cases hf : env.flags.testBit E.value <;> simp [hS, hsnap, hf]

/-- Claim C10: `FE.ALL_EXCEPT` is the OR of the bits of only five exception
kinds (invalid, divide-by-zero, overflow, underflow, inexact), does not
include the denormal-operand bit, and therefore differs from
`EXCEPT.to_mask EXCEPT_ALL`, even though `EXCEPT_ALL` contains all six
kinds. -/
theorem C10_all_except_omits_denorm :
    FE.ALL_EXCEPT = (FE.INVALID ||| FE.DIVBYZERO ||| FE.OVERFLOW ||| FE.UNDERFLOW ||| FE.INEXACT) ∧
      FE.ALL_EXCEPT &&& FE.DENORM = 0 ∧
      FE.ALL_EXCEPT ≠ EXCEPT.to_mask EXCEPT_ALL ∧
      ∀ e : EXCEPT, e ∈ EXCEPT_ALL := by
  decide

end Pyfenv
